import Mathlib

/-!
Shallow embedding of the presence-interval tracking logic of
`src/main.rs` (the `wifi_module` repository), delayed-scan path.

Timestamps (`std::time::Instant`) are modelled as natural numbers of
seconds; `Instant::duration_since` saturates at zero, which matches
truncated subtraction on `Nat`.  The two `HashMap`s of the scan loop
(`device_intervals`, `last_seen`) are modelled as association lists
updated in place, together with the `networks` variable that always
holds the most recent scan result.  One loop iteration of
`run_wifi_script` (lines 79-97) ingests one snapshot: it overwrites
`networks` and then processes each sighted network in order.
-/

/-- One scanned network, the fields of `tokio_wifiscanner::Wifi` that the
program reads (`mac`, `ssid`, `channel`, `security`). -/
structure Wifi where
  mac : String
  ssid : String
  channel : String
  security : String
deriving DecidableEq

/-- The `Config` struct deserialized from `config.json` (lines 20-25 of
`src/main.rs`).  It has exactly these three fields; none of them is a
silence threshold. -/
structure Config where
  instant_scan : Bool
  start_after_duration : Option Nat
  scan_duration : Option Nat
deriving DecidableEq

/-- The mutable state of the delayed-scan loop:
`device_intervals: HashMap<String, Vec<(Instant, Instant)>>`,
`last_seen: HashMap<String, Instant>`, and the `networks` vector that is
reassigned to the latest scan result on every iteration. -/
structure ScanState where
  deviceIntervals : List (String × List (Nat × Nat))
  lastSeen : List (String × Nat)
  networks : List Wifi
deriving DecidableEq

/-- Insert-or-replace on an association list; models `HashMap` writes
(`entry(..).or_insert(..)` followed by assignment, and
`get_mut`/`insert`). -/
def setAL {α : Type} : List (String × α) → String → α → List (String × α)
  | [], k, v => [(k, v)]
  | p :: rest, k, v => if p.1 == k then (p.1, v) :: rest else p :: setAL rest k v

/-- The silence threshold: the literal `5` in
`now.duration_since(*device_last_seen).as_secs() > 5` (line 87). -/
def silenceThreshold : Nat := 5

/-- Lines 88-92: push the pair `(*device_last_seen, now)` onto the
interval vector of the device, creating the vector if absent. -/
def pushInterval (m : List (String × List (Nat × Nat))) (k : String)
    (iv : Nat × Nat) : List (String × List (Nat × Nat)) :=
  setAL m k ((List.lookup k m).getD [] ++ [iv])

/-- Lines 82-95, the body of `for network in networks.iter()`, for one
network `w` sighted at time `t`: read (or initialise to `t`) the
`last_seen` entry of the device; if `t - last_seen > 5` push the interval
`(last_seen, t)`; finally set `last_seen` to `t`. -/
def stepSighting (s : ScanState) (t : Nat) (w : Wifi) : ScanState :=
  let l := (List.lookup w.mac s.lastSeen).getD t
  let s1 := if t - l > silenceThreshold then
      { s with deviceIntervals := pushInterval s.deviceIntervals w.mac (l, t) }
    else s
  { s1 with lastSeen := setAL s1.lastSeen w.mac t }

/-- The spec-side variant of `stepSighting`, stated for the refinement
comparison of the configuration claim: identical logic, but the silence
threshold is an externally supplied parameter (per the spec, a positive
configuration value), instead of the hard-coded `5` of the source. -/
def stepSightingWithThreshold (threshold : Nat) (s : ScanState) (t : Nat)
    (w : Wifi) : ScanState :=
  let l := (List.lookup w.mac s.lastSeen).getD t
  let s1 := if t - l > threshold then
      { s with deviceIntervals := pushInterval s.deviceIntervals w.mac (l, t) }
    else s
  { s1 with lastSeen := setAL s1.lastSeen w.mac t }

/-- One iteration of the `while` loop (lines 79-97): `networks` is
overwritten with the snapshot, then every network in it is processed. -/
def ingestSnapshot (s : ScanState) (t : Nat) (ws : List Wifi) : ScanState :=
  ws.foldl (fun a w => stepSighting a t w) { s with networks := ws }

/-- The state before the loop: both maps empty, no networks (lines
75-78). -/
def initState : ScanState := { deviceIntervals := [], lastSeen := [], networks := [] }

/-- The whole delayed-scan loop over a sequence of snapshots, each a
timestamp paired with the list of networks visible at that time. -/
def runScan (snaps : List (Nat × List Wifi)) : ScanState :=
  snaps.foldl (fun a p => ingestSnapshot a p.1 p.2) initState

/-- The closed intervals currently recorded for device `d`. -/
def intervalsOf (s : ScanState) (d : String) : List (Nat × Nat) :=
  (List.lookup d s.deviceIntervals).getD []

/-- The `last_seen` entry of device `d`, if any. -/
def lastSeenOf (s : ScanState) (d : String) : Option Nat :=
  List.lookup d s.lastSeen

/-- The attributes the program can still produce for device `d`: the
first entry with matching mac in the retained last snapshot
(`networks.iter().find(|n| n.mac == *mac)`, line 106). -/
def attrsOf (s : ScanState) (d : String) : Option Wifi :=
  s.networks.find? (fun n => n.mac == d)

/-- Function `sanitize_string` (lines 148-150): replaces apostrophe,
backtick and double quote by spaces. -/
def sanitize_string (input : String) : String :=
  ((input.replace "\x27" " ").replace "\x60" " ").replace "\"" " "

/-- Function `get_manufacturer` (lines 152-155): keys the OUI table by the
uppercased concatenation (no separators) of the first three
colon-separated groups of the mac, falling back to `"Unknown"`. -/
def get_manufacturer (mac : String) (oui_data : List (String × String)) :
    Option String :=
  let macKey := (String.join ((mac.splitOn ":").take 3)).toUpper
  (List.lookup macKey oui_data).or (some "Unknown")

/-- The duration strings of lines 103-105: for each interval the text
`start.elapsed().as_secs()` dash `end.elapsed().as_secs()`, joined by
commas, where `elapsed` at report time `genT` is `genT - instant`
(saturating). -/
def mkDurations (genT : Nat) (ivs : List (Nat × Nat)) : String :=
  String.intercalate "," (ivs.map (fun iv =>
    toString (genT - iv.1) ++ "-" ++ toString (genT - iv.2)))

/-- One entry of the final JSON report (lines 109-116). -/
structure ReportEntry where
  ssid : String
  mac : String
  manufacturer : String
  network_security : String
  channel : String
  wifi_durations : String
deriving DecidableEq

/-- Lines 109-116: the report object built for one device from the
network found in the last snapshot. -/
def mkEntry (genT : Nat) (oui : List (String × String)) (nw : Wifi)
    (ivs : List (Nat × Nat)) : ReportEntry :=
  { ssid := sanitize_string nw.ssid
  , mac := nw.mac
  , manufacturer := (get_manufacturer nw.mac oui).getD "Unknown"
  , network_security := if nw.security = "" then "Open" else "Secured"
  , channel := nw.channel
  , wifi_durations := mkDurations genT ivs }

/-- Lines 100-120: the report loop over `device_intervals`.  Each device
with recorded intervals is looked up in the `networks` of the last snapshot
and the result is unwrapped (line 106); a failed lookup is a panic,
modelled as `none`. -/
def buildReport (genT : Nat) (oui : List (String × String))
    (networks : List Wifi) :
    List (String × List (Nat × Nat)) → Option (List ReportEntry)
  | [] => some []
  | (mac, ivs) :: rest =>
    match networks.find? (fun n => n.mac == mac) with
    | none => none
    | some nw =>
      (buildReport genT oui networks rest).map
        (fun es => mkEntry genT oui nw ivs :: es)

/-- A sample device used by concrete witnesses. -/
def wA : Wifi := { mac := "aa:bb:cc:dd:ee:ff", ssid := "netA", channel := "1", security := "WPA2" }

/-- A second sample device used by concrete witnesses. -/
def wB : Wifi := { mac := "11:22:33:44:55:66", ssid := "netB", channel := "6", security := "" }

/-- The per-device invariant maintained by the scan loop, with `T` an
upper bound on every timestamp processed so far: every recorded interval
is more than the threshold long, intervals are chained end-before-start,
a device with a `last_seen` entry has all its interval ends at or before
that entry which itself is at most `T`, and a device without a
`last_seen` entry has no intervals. -/
def TrackInv (s : ScanState) (T : Nat) : Prop :=
  ∀ d : String,
    (∀ iv ∈ intervalsOf s d, iv.1 + silenceThreshold < iv.2) ∧
    List.Pairwise (fun a b : Nat × Nat => a.2 ≤ b.1) (intervalsOf s d) ∧
    (∀ x : Nat, lastSeenOf s d = some x →
      (∀ iv ∈ intervalsOf s d, iv.2 ≤ x) ∧ x ≤ T) ∧
    (lastSeenOf s d = none → intervalsOf s d = [])

theorem lookup_setAL_self {α : Type} (m : List (String × α)) (k : String) (v : α) :
    List.lookup k (setAL m k v) = some v := by
  induction m with
  | nil => simp [setAL, List.lookup]
  | cons p rest ih =>
    by_cases h : p.1 = k
    · simp [setAL, h, List.lookup]
    · have hb : (p.1 == k) = false := beq_eq_false_iff_ne.mpr h
      have hb' : (k == p.1) = false := beq_eq_false_iff_ne.mpr (Ne.symm h)
      simp [setAL, hb, List.lookup, hb', ih]

theorem lookup_setAL_other {α : Type} (m : List (String × α)) (k d : String)
    (v : α) (h : d ≠ k) : List.lookup d (setAL m k v) = List.lookup d m := by
  have hdk : (d == k) = false := beq_eq_false_iff_ne.mpr h
  induction m with
  | nil => simp [setAL, List.lookup, hdk]
  | cons p rest ih =>
    by_cases hp : p.1 = k
    · subst hp
      simp [setAL, List.lookup, hdk]
    · have hb : (p.1 == k) = false := beq_eq_false_iff_ne.mpr hp
      by_cases hdp : d = p.1
      · subst hdp
        simp [setAL, hb, List.lookup]
      · have hd : (d == p.1) = false := beq_eq_false_iff_ne.mpr hdp
        simp [setAL, hb, List.lookup, hd, ih]

theorem step_networks (s : ScanState) (t : Nat) (w : Wifi) :
    (stepSighting s t w).networks = s.networks := by
  simp only [stepSighting]
  split_ifs <;> rfl

theorem step_lastSeen_self (s : ScanState) (t : Nat) (w : Wifi) :
    lastSeenOf (stepSighting s t w) w.mac = some t := by
  simp only [stepSighting, lastSeenOf]
  split_ifs <;> exact lookup_setAL_self _ _ _

theorem step_lastSeen_other (s : ScanState) (t : Nat) (w : Wifi) (d : String)
    (h : d ≠ w.mac) : lastSeenOf (stepSighting s t w) d = lastSeenOf s d := by
  simp only [stepSighting, lastSeenOf]
  split_ifs <;> exact lookup_setAL_other _ _ _ _ h

theorem step_intervals_other (s : ScanState) (t : Nat) (w : Wifi) (d : String)
    (h : d ≠ w.mac) : intervalsOf (stepSighting s t w) d = intervalsOf s d := by
  simp only [stepSighting, intervalsOf, pushInterval]
  split_ifs
  · simp [lookup_setAL_other _ _ _ _ h]
  · rfl

theorem step_intervals_self (s : ScanState) (t : Nat) (w : Wifi) :
    intervalsOf (stepSighting s t w) w.mac =
      if t - (List.lookup w.mac s.lastSeen).getD t > silenceThreshold then
        intervalsOf s w.mac ++ [((List.lookup w.mac s.lastSeen).getD t, t)]
      else intervalsOf s w.mac := by
  simp only [stepSighting, intervalsOf, pushInterval]
  split_ifs
  · simp [lookup_setAL_self]
  · rfl

theorem trackInv_mono (s : ScanState) (T T' : Nat) (h : TrackInv s T)
    (hle : T ≤ T') : TrackInv s T' := by
  intro d
  obtain ⟨h1, h2, h3, h4⟩ := h d
  exact ⟨h1, h2, fun x hx => ⟨(h3 x hx).1, le_trans (h3 x hx).2 hle⟩, h4⟩

theorem trackInv_init (T : Nat) : TrackInv initState T := by
  intro d
  simp [initState, intervalsOf, lastSeenOf, List.lookup]

theorem step_inv (s : ScanState) (T t : Nat) (w : Wifi)
    (hInv : TrackInv s T) (hT : T ≤ t) : TrackInv (stepSighting s t w) t := by
  intro d
  obtain ⟨h1, h2, h3, h4⟩ := hInv d
  by_cases hd : d = w.mac
  · subst hd
    rw [step_intervals_self, step_lastSeen_self]
    cases hls : List.lookup w.mac s.lastSeen with
    | none =>
      have hemp : intervalsOf s w.mac = [] := h4 hls
      simp only [Option.getD_none, Nat.sub_self, gt_iff_lt]
      rw [if_neg (Nat.not_lt_zero silenceThreshold)]
      rw [hemp]
      refine ⟨by simp, by simp, ?_, by simp⟩
      intro x hx
      have hx' : t = x := by simpa using hx
      subst hx'
      exact ⟨by simp, le_refl t⟩
    | some l0 =>
      obtain ⟨hEnds, hl0T⟩ := h3 l0 hls
      simp only [Option.getD_some, gt_iff_lt]
      by_cases hgap : silenceThreshold < t - l0
      · rw [if_pos hgap]
        refine ⟨?_, ?_, ?_, by simp⟩
        · intro iv hiv
          rcases List.mem_append.mp hiv with hm | hm
          · exact h1 iv hm
          · have : iv = (l0, t) := by simpa using hm
            subst this
            simp only
            omega
        · rw [List.pairwise_append]
          refine ⟨h2, by simp, ?_⟩
          intro a ha b hb
          have : b = (l0, t) := by simpa using hb
          subst this
          exact hEnds a ha
        · intro x hx
          have hx' : t = x := by simpa using hx
          subst hx'
          refine ⟨?_, le_refl t⟩
          intro iv hiv
          rcases List.mem_append.mp hiv with hm | hm
          · exact le_trans (hEnds iv hm) (le_trans hl0T hT)
          · have : iv = (l0, t) := by simpa using hm
            subst this
            exact le_refl t
      · rw [if_neg hgap]
        refine ⟨h1, h2, ?_, by simp⟩
        intro x hx
        have hx' : t = x := by simpa using hx
        subst hx'
        exact ⟨fun iv hiv => le_trans (hEnds iv hiv) (le_trans hl0T hT), le_refl t⟩
  · rw [step_intervals_other s t w d hd, step_lastSeen_other s t w d hd]
    exact ⟨h1, h2, fun x hx => ⟨(h3 x hx).1, le_trans (h3 x hx).2 hT⟩, h4⟩

theorem foldSightings_inv (t : Nat) (ws : List Wifi) :
    ∀ s : ScanState, TrackInv s t →
      TrackInv (ws.foldl (fun a w => stepSighting a t w) s) t := by
  induction ws with
  | nil => intro s h; exact h
  | cons w rest ih =>
    intro s h
    exact ih _ (step_inv s t t w h (le_refl t))

theorem ingest_inv (s : ScanState) (T t : Nat) (ws : List Wifi)
    (h : TrackInv s T) (hT : T ≤ t) : TrackInv (ingestSnapshot s t ws) t := by
  have h0 : TrackInv { s with networks := ws } T := h
  exact foldSightings_inv t ws _ (trackInv_mono _ _ _ h0 hT)

theorem run_inv (snaps : List (Nat × List Wifi)) :
    ∀ (s : ScanState) (T : Nat), TrackInv s T →
      List.Chain' (fun a b : Nat => a ≤ b) (T :: snaps.map Prod.fst) →
      ∃ Tf : Nat, TrackInv (snaps.foldl (fun a p => ingestSnapshot a p.1 p.2) s) Tf := by
  induction snaps with
  | nil => intro s T h _; exact ⟨T, h⟩
  | cons p rest ih =>
    intro s T h hc
    rw [List.map_cons] at hc
    have hTp : T ≤ p.1 := (List.chain'_cons.mp hc).1
    have hc' := (List.chain'_cons.mp hc).2
    exact ih _ p.1 (ingest_inv s T p.1 p.2 h hTp) hc'

theorem pairwise_strengthen (l : List (Nat × Nat))
    (hb : ∀ iv ∈ l, iv.1 + silenceThreshold < iv.2)
    (hp : List.Pairwise (fun a b : Nat × Nat => a.2 ≤ b.1) l) :
    List.Pairwise (fun a b : Nat × Nat => a.2 ≤ b.1 ∧ a.1 < b.1) l := by
  induction l with
  | nil => exact List.Pairwise.nil
  | cons a l ih =>
    rw [List.pairwise_cons] at hp ⊢
    refine ⟨?_, ih (fun iv hiv => hb iv (List.mem_cons_of_mem a hiv)) hp.2⟩
    intro b hbmem
    have hab : a.2 ≤ b.1 := hp.1 b hbmem
    have haa : a.1 + silenceThreshold < a.2 := hb a (List.mem_cons_self a l)
    exact ⟨hab, by omega⟩

theorem runScan_inv (snaps : List (Nat × List Wifi))
    (hmono : List.Chain' (fun a b : Nat => a ≤ b) (snaps.map Prod.fst)) :
    ∃ Tf : Nat, TrackInv (runScan snaps) Tf := by
  have hc : List.Chain' (fun a b : Nat => a ≤ b) (0 :: snaps.map Prod.fst) := by
    cases hsn : snaps.map Prod.fst with
    | nil => simp
    | cons t0 rest =>
      rw [hsn] at hmono
      exact List.chain'_cons.mpr ⟨Nat.zero_le t0, hmono⟩
  exact run_inv snaps initState 0 (trackInv_init 0) hc

theorem foldSightings_networks (t : Nat) (ws : List Wifi) :
    ∀ s : ScanState,
      (ws.foldl (fun a w => stepSighting a t w) s).networks = s.networks := by
  induction ws with
  | nil => intro s; rfl
  | cons w rest ih => intro s; rw [List.foldl_cons, ih, step_networks]

theorem ingest_networks (s : ScanState) (t : Nat) (ws : List Wifi) :
    (ingestSnapshot s t ws).networks = ws := by
  unfold ingestSnapshot
  rw [foldSightings_networks]

theorem foldSightings_lastSeen_absent (t : Nat) (ws : List Wifi) (d : String)
    (hd : ∀ w ∈ ws, w.mac ≠ d) :
    ∀ s : ScanState,
      lastSeenOf (ws.foldl (fun a w => stepSighting a t w) s) d = lastSeenOf s d := by
  induction ws with
  | nil => intro s; rfl
  | cons w rest ih =>
    intro s
    rw [List.foldl_cons,
      ih (fun x hx => hd x (List.mem_cons_of_mem w hx)),
      step_lastSeen_other s t w d (Ne.symm (hd w (List.mem_cons_self w rest)))]

theorem foldSightings_intervals_absent (t : Nat) (ws : List Wifi) (d : String)
    (hd : ∀ w ∈ ws, w.mac ≠ d) :
    ∀ s : ScanState,
      intervalsOf (ws.foldl (fun a w => stepSighting a t w) s) d = intervalsOf s d := by
  induction ws with
  | nil => intro s; rfl
  | cons w rest ih =>
    intro s
    rw [List.foldl_cons,
      ih (fun x hx => hd x (List.mem_cons_of_mem w hx)),
      step_intervals_other s t w d (Ne.symm (hd w (List.mem_cons_self w rest)))]

theorem buildReport_isSome_iff (genT : Nat) (oui : List (String × String))
    (networks : List Wifi) (di : List (String × List (Nat × Nat))) :
    (buildReport genT oui networks di).isSome = true ↔
      ∀ p ∈ di, ∃ w ∈ networks, w.mac = p.1 := by
  induction di with
  | nil => simp [buildReport]
  | cons q rest ih =>
    obtain ⟨qmac, qivs⟩ := q
    cases hf : networks.find? (fun n => n.mac == qmac) with
    | none =>
      have hnone : ∀ w ∈ networks, w.mac ≠ qmac := by
        intro w hw
        have := List.find?_eq_none.mp hf w hw
        simpa using this
      simp only [buildReport, hf]
      constructor
      · intro h
        simp at h
      · intro h
        obtain ⟨w, hw, hmac⟩ := h (qmac, qivs) (List.mem_cons_self _ _)
        exact absurd hmac (hnone w hw)
    | some nw =>
      have hmem : nw ∈ networks := List.mem_of_find?_eq_some hf
      have hmac : nw.mac = qmac := by
        have := List.find?_some hf
        simpa using this
      simp only [buildReport, hf]
      rw [Option.isSome_map', ih]
      constructor
      · intro h q hq
        rcases List.mem_cons.mp hq with rfl | hq'
        · exact ⟨nw, hmem, hmac⟩
        · exact h q hq'
      · intro h q hq
        exact h q (List.mem_cons_of_mem _ hq)

/-- Claim C1 — evaluation of the code at a failing input.  Device `wA`
is seen at `t = 0, 2, 10` with threshold 5; at `t = 10` the gap
`10 - 2 = 8` exceeds the threshold.  The program appends
`(*device_last_seen, now) = (2, 10)` — the interval spanning the silence
gap — and not `(open_start, last_seen) = (0, 2)`, the span of continuous
presence the claim says is appended (the code keeps no `open_start`
at all). -/
theorem closure_appends_gap_interval :
    intervalsOf (runScan [(0, [wA]), (2, [wA]), (10, [wA])]) wA.mac = [(2, 10)] ∧
    intervalsOf (runScan [(0, [wA]), (2, [wA]), (10, [wA])]) wA.mac ≠ [(0, 2)] := by
  constructor
  · decide
  · decide

/-- Claim C2 — evaluation of the code at a failing input.  A device seen
in exactly one snapshot (at `t = 0`) has no closed interval when the run
ends: the code performs no finalization, `device_intervals` stays empty,
and the final report is empty as well, instead of the single
zero-duration interval `(0, 0)` the claim requires. -/
theorem single_sighting_yields_nothing :
    intervalsOf (runScan [(0, [wA])]) wA.mac = [] ∧
    buildReport 0 [] (runScan [(0, [wA])]).networks
      (runScan [(0, [wA])]).deviceIntervals = some [] := by
  constructor
  · decide
  · decide

/-- Claim C3 — evaluation of the code at the scenario given by the claim.
Device `wB` seen at `t = 0, 1, 2, 10, 11` with threshold 5: the code
records exactly one interval, the gap interval `(2, 10)`, not the two
presence spans `(0, 2)` and `(10, 11)` the claim states (there is no
finalization, so the trailing span `(10, 11)` is never closed, and the
interval recorded at `t = 10` is the gap, not the span `(0, 2)`). -/
theorem multi_gap_scenario_actual :
    intervalsOf (runScan [(0, [wB]), (1, [wB]), (2, [wB]), (10, [wB]), (11, [wB])])
        wB.mac = [(2, 10)] ∧
    intervalsOf (runScan [(0, [wB]), (1, [wB]), (2, [wB]), (10, [wB]), (11, [wB])])
        wB.mac ≠ [(0, 2), (10, 11)] := by
  constructor
  · decide
  · decide

/-- Claim C4: the threshold comparison of line 87 is strict.  For a
device with a prior `last_seen` entry `l`, a sighting at time `t` with
`t - l` exactly equal to the threshold pushes no interval
(`device_intervals` is unchanged) and merely updates the `last_seen`
entry of the device to `t`. -/
theorem gap_equal_threshold_no_closure (s : ScanState) (w : Wifi) (t l : Nat)
    (hl : lastSeenOf s w.mac = some l) (hgap : t - l = silenceThreshold) :
    (stepSighting s t w).deviceIntervals = s.deviceIntervals ∧
    lastSeenOf (stepSighting s t w) w.mac = some t := by
  have hnot : ¬ silenceThreshold < t - (List.lookup w.mac s.lastSeen).getD t := by
    unfold lastSeenOf at hl
    rw [hl, Option.getD_some, hgap]
    exact lt_irrefl silenceThreshold
  refine ⟨?_, step_lastSeen_self s t w⟩
  simp only [stepSighting]
  rw [if_neg hnot]

/-- Witness for the strict-threshold theorem: after seeing `wA` at
`t = 0`, the sighting at `t = 5` (gap exactly 5) closes nothing and sets
`last_seen` to 5. -/
theorem gap_equal_threshold_no_closure_witness :
    (lastSeenOf (runScan [(0, [wA])]) wA.mac = some 0 ∧
      (5 : Nat) - 0 = silenceThreshold) ∧
    ((stepSighting (runScan [(0, [wA])]) 5 wA).deviceIntervals =
        (runScan [(0, [wA])]).deviceIntervals ∧
      lastSeenOf (stepSighting (runScan [(0, [wA])]) 5 wA) wA.mac = some 5) :=
  ⟨⟨by decide, by decide⟩,
    gap_equal_threshold_no_closure (runScan [(0, [wA])]) wA 5 0 (by decide) (by decide)⟩

/-- Claim C5 — counterexample.  The claim says the silence threshold is
a positive configuration value supplied to the tracker.  `2` is such a
positive value, yet the tracker run with a supplied threshold of `2`
(the spec-side `stepSightingWithThreshold`) differs from the code step
at a concrete sighting with gap 3: the code compares against the
hard-coded literal `5` and takes no threshold from the configuration
(`Config` has no threshold field). -/
theorem threshold_not_a_config_value :
    0 < 2 ∧
    stepSightingWithThreshold 2 (runScan [(0, [wA])]) 3 wA ≠
      stepSighting (runScan [(0, [wA])]) 3 wA :=
  ⟨by decide, by decide⟩

/-- Claim C5 as amended: the silence threshold used by the tracker is
the hard-coded constant 5 seconds — a positive integer, but not supplied
by the configuration loader and not validated; the step of the code is
exactly the parameterised step instantiated at the constant. -/
theorem threshold_hardcoded_positive :
    silenceThreshold = 5 ∧ 0 < silenceThreshold ∧
    ∀ (s : ScanState) (t : Nat) (w : Wifi),
      stepSighting s t w = stepSightingWithThreshold silenceThreshold s t w :=
  ⟨rfl, by decide, fun s t w => rfl⟩

/-- Claim C6: for every device, the closed intervals recorded by the
scan loop are pairwise non-overlapping (`a.2 ≤ b.1` for `a` before `b`)
and strictly ordered by start time, provided snapshot timestamps are
non-decreasing.  Quantifying over all snapshot sequences covers the
state after every ingest step; the code has no separate finalization, so
the state at run end is the state after the last ingest. -/
theorem closed_intervals_sorted_disjoint (snaps : List (Nat × List Wifi))
    (hmono : List.Chain' (fun a b : Nat => a ≤ b) (snaps.map Prod.fst))
    (d : String) :
    List.Pairwise (fun a b : Nat × Nat => a.2 ≤ b.1 ∧ a.1 < b.1)
      (intervalsOf (runScan snaps) d) := by
  obtain ⟨Tf, hInv⟩ := runScan_inv snaps hmono
  obtain ⟨h1, h2, _, _⟩ := hInv d
  exact pairwise_strengthen _ h1 h2

/-- Witness: `wA` seen at `t = 0, 10, 20` produces the two intervals
`(0, 10)` and `(10, 20)`, pairwise disjoint and sorted. -/
theorem closed_intervals_sorted_disjoint_witness :
    List.Chain' (fun a b : Nat => a ≤ b)
      (([((0 : Nat), [wA]), (10, [wA]), (20, [wA])]).map Prod.fst) ∧
    List.Pairwise (fun a b : Nat × Nat => a.2 ≤ b.1 ∧ a.1 < b.1)
      (intervalsOf (runScan [((0 : Nat), [wA]), (10, [wA]), (20, [wA])]) wA.mac) :=
  ⟨by norm_num [List.chain'_cons], closed_intervals_sorted_disjoint _ (by norm_num [List.chain'_cons]) wA.mac⟩

/-- Claim C7: every closed interval recorded by the scan loop satisfies
`start ≤ end`, given non-decreasing snapshot timestamps (the push on
line 89 only happens when `t - last_seen > 5`, so in fact
`start + 5 < end`). -/
theorem closed_intervals_end_ge_start (snaps : List (Nat × List Wifi))
    (hmono : List.Chain' (fun a b : Nat => a ≤ b) (snaps.map Prod.fst))
    (d : String) :
    ∀ iv ∈ intervalsOf (runScan snaps) d, iv.1 ≤ iv.2 := by
  obtain ⟨Tf, hInv⟩ := runScan_inv snaps hmono
  obtain ⟨h1, _, _, _⟩ := hInv d
  intro iv hiv
  have := h1 iv hiv
  omega

/-- Witness: the single interval `(0, 10)` recorded for `wA` seen at
`t = 0` and `t = 10` has its end after its start. -/
theorem closed_intervals_end_ge_start_witness :
    List.Chain' (fun a b : Nat => a ≤ b)
      (([((0 : Nat), [wA]), (10, [wA])]).map Prod.fst) ∧
    ∀ iv ∈ intervalsOf (runScan [((0 : Nat), [wA]), (10, [wA])]) wA.mac,
      iv.1 ≤ iv.2 :=
  ⟨by norm_num [List.chain'_cons], closed_intervals_end_ge_start _ (by norm_num [List.chain'_cons]) wA.mac⟩

/-- Claim C8 — counterexample.  Ingesting a snapshot that does not
contain device `wA` does not leave its stored attributes unchanged: the
code keeps attributes only in the `networks` variable, which is
overwritten by every snapshot, so after ingesting `[wB]` the attributes
of `wA` are gone (`none`) where before they were available. -/
theorem absent_device_attrs_dropped :
    attrsOf (ingestSnapshot (runScan [(0, [wA])]) 6 [wB]) wA.mac ≠
      attrsOf (runScan [(0, [wA])]) wA.mac := by
  decide

/-- Claim C8 as amended: ingesting a snapshot leaves the tracker maps of
every device absent from it untouched — its `last_seen` entry (the only
per-device open-span state the code keeps) and its recorded closed
intervals are unchanged — but its stored attributes are not preserved:
only the network list of the latest snapshot is retained, so an absent device
has no attributes after the ingest. -/
theorem ingest_absent_device_frame (s : ScanState) (t : Nat) (ws : List Wifi)
    (d : String) (hd : ∀ w ∈ ws, w.mac ≠ d) :
    lastSeenOf (ingestSnapshot s t ws) d = lastSeenOf s d ∧
    intervalsOf (ingestSnapshot s t ws) d = intervalsOf s d ∧
    attrsOf (ingestSnapshot s t ws) d = none := by
  refine ⟨?_, ?_, ?_⟩
  · exact foldSightings_lastSeen_absent t ws d hd _
  · exact foldSightings_intervals_absent t ws d hd _
  · unfold attrsOf
    rw [ingest_networks]
    apply List.find?_eq_none.mpr
    intro w hw
    simpa using hd w hw

/-- Witness: ingesting the snapshot `[wB]` at `t = 6` leaves the timing
state of `wA` unchanged and drops its attributes. -/
theorem ingest_absent_device_frame_witness :
    (∀ w ∈ [wB], w.mac ≠ wA.mac) ∧
    (lastSeenOf (ingestSnapshot (runScan [(0, [wA])]) 6 [wB]) wA.mac =
        lastSeenOf (runScan [(0, [wA])]) wA.mac ∧
      intervalsOf (ingestSnapshot (runScan [(0, [wA])]) 6 [wB]) wA.mac =
        intervalsOf (runScan [(0, [wA])]) wA.mac ∧
      attrsOf (ingestSnapshot (runScan [(0, [wA])]) 6 [wB]) wA.mac = none) :=
  ⟨by decide, ingest_absent_device_frame (runScan [(0, [wA])]) 6 [wB] wA.mac (by decide)⟩

/-- Claim C9: the delayed-scan report generation looks every device with
recorded intervals up in the network list of the last snapshot and unwraps
the result (line 106; `none` here models the `unwrap` panic).  The
report is produced (`isSome`) exactly when every device with recorded
intervals appears in the final snapshot; a device with intervals that is
absent from the last scan makes the lookup fail, i.e. the program
panics. -/
theorem report_requires_presence_in_last_scan (genT : Nat)
    (oui : List (String × String)) (s : ScanState) :
    (buildReport genT oui s.networks s.deviceIntervals).isSome = true ↔
      ∀ p ∈ s.deviceIntervals, ∃ w ∈ s.networks, w.mac = p.1 :=
  buildReport_isSome_iff genT oui s.networks s.deviceIntervals

/-- Claim C10: `get_manufacturer` always returns `some`: the OUI-table
entry under the uppercased concatenation of the first three
colon-separated groups, or `"Unknown"` when the table has no such entry.
In particular it never returns `none`, so the `unwrap_or_else`
fallback of the callers can never be taken. -/
theorem get_manufacturer_never_none (mac : String)
    (oui_data : List (String × String)) :
    get_manufacturer mac oui_data =
      some ((List.lookup ((String.join ((mac.splitOn ":").take 3)).toUpper)
        oui_data).getD "Unknown") := by
  simp only [get_manufacturer]
  cases h : List.lookup ((String.join ((mac.splitOn ":").take 3)).toUpper) oui_data with
  | none => rfl
  | some v => rfl
